import Mathlib

/-!
Verification development for the mesh editing and measurement engine of a
dental 3D viewer (`Viewer3D` in `src/components/Toolbar.tsx`).

The engine operates on an indexed triangle mesh held in Three.js buffer
attributes.  We embed the geometry shallowly: 3D vectors are triples of real
numbers (idealising the JavaScript IEEE doubles as reals), the position and
normal buffer attributes are lists of vectors, and the in-place mutation of
the position buffer performed by `applyDeformation` is an explicit fold that
threads the buffer through the per-vertex updates in index order, exactly as
the source's `for` loop does.

Library calls (`THREE.Vector3.distanceTo`, `lerp`, `THREE.Color.setHSL`,
`THREE.Plane.setFromNormalAndCoplanarPoint`,
`BufferGeometry.computeVertexNormals` on the non-indexed geometry produced by
`STLLoader`) are modelled from the Three.js sources they dispatch to.
-/

/-- A 3D vector, modelling `THREE.Vector3` (components are JS numbers,
idealised as reals). -/
@[ext] structure Vec3 where
  x : ℝ
  y : ℝ
  z : ℝ

/-- The zero vector, `new THREE.Vector3()`. -/
def Vec3.zero : Vec3 := ⟨0, 0, 0⟩

/-- Componentwise addition, `Vector3.add`. -/
def Vec3.add (a b : Vec3) : Vec3 := ⟨a.x + b.x, a.y + b.y, a.z + b.z⟩

/-- Componentwise subtraction, `Vector3.sub` / `subVectors`. -/
def Vec3.sub (a b : Vec3) : Vec3 := ⟨a.x - b.x, a.y - b.y, a.z - b.z⟩

instance : Sub Vec3 := ⟨Vec3.sub⟩
instance : Add Vec3 := ⟨Vec3.add⟩
instance : Zero Vec3 := ⟨Vec3.zero⟩

instance : AddCommMonoid Vec3 where
  add_assoc a b c := by
    show Vec3.add (Vec3.add a b) c = Vec3.add a (Vec3.add b c)
    unfold Vec3.add; ext <;> dsimp <;> ring
  zero_add a := by
    show Vec3.add Vec3.zero a = a
    unfold Vec3.add Vec3.zero; ext <;> dsimp <;> ring
  add_zero a := by
    show Vec3.add a Vec3.zero = a
    unfold Vec3.add Vec3.zero; ext <;> dsimp <;> ring
  add_comm a b := by
    show Vec3.add a b = Vec3.add b a
    unfold Vec3.add; ext <;> dsimp <;> ring
  nsmul := nsmulRec
  nsmul_zero _ := rfl
  nsmul_succ _ _ := rfl

/-- Scalar multiplication, `Vector3.multiplyScalar`. -/
def Vec3.smul (a : Vec3) (s : ℝ) : Vec3 := ⟨a.x * s, a.y * s, a.z * s⟩

/-- Dot product, `Vector3.dot`. -/
def Vec3.dot (a b : Vec3) : ℝ := a.x * b.x + a.y * b.y + a.z * b.z

/-- Cross product, `Vector3.cross` / `crossVectors`. -/
def Vec3.cross (a b : Vec3) : Vec3 :=
  ⟨a.y * b.z - a.z * b.y, a.z * b.x - a.x * b.z, a.x * b.y - a.y * b.x⟩

/-- Squared distance, `Vector3.distanceToSquared`. -/
def Vec3.distanceToSquared (a b : Vec3) : ℝ :=
  (a.x - b.x) * (a.x - b.x) + (a.y - b.y) * (a.y - b.y) + (a.z - b.z) * (a.z - b.z)

/-- Euclidean distance, `Vector3.distanceTo`
(`Math.sqrt(this.distanceToSquared(v))`). -/
noncomputable def Vec3.distanceTo (a b : Vec3) : ℝ :=
  Real.sqrt (a.distanceToSquared b)

/-- Vector length, `Vector3.length` (`Math.sqrt(x*x + y*y + z*z)`). -/
noncomputable def Vec3.length (a : Vec3) : ℝ :=
  Real.sqrt (a.x * a.x + a.y * a.y + a.z * a.z)

/-- Linear interpolation toward `target`, `Vector3.lerp`
(`this.x += (v.x - this.x) * alpha` componentwise). -/
def Vec3.lerp (a target : Vec3) (alpha : ℝ) : Vec3 :=
  ⟨a.x + (target.x - a.x) * alpha,
   a.y + (target.y - a.y) * alpha,
   a.z + (target.z - a.z) * alpha⟩

/-- Normalisation, `Vector3.normalize` (`divideScalar(this.length() || 1)`:
a zero-length vector is divided by 1 and stays zero). -/
noncomputable def Vec3.normalize (a : Vec3) : Vec3 :=
  let l := a.length
  a.smul (1 / (if l = 0 then 1 else l))

@[simp] lemma Vec3.add_def (a b : Vec3) :
    a + b = ⟨a.x + b.x, a.y + b.y, a.z + b.z⟩ := rfl

@[simp] lemma Vec3.sub_def (a b : Vec3) :
    a - b = ⟨a.x - b.x, a.y - b.y, a.z - b.z⟩ := rfl

@[simp] lemma Vec3.zero_def : (0 : Vec3) = ⟨0, 0, 0⟩ := rfl

/-- Distance is symmetric in the squared form we use in evaluations. -/
lemma Vec3.distanceToSquared_nonneg (a b : Vec3) : 0 ≤ a.distanceToSquared b := by
  unfold Vec3.distanceToSquared
  nlinarith [mul_self_nonneg (a.x - b.x), mul_self_nonneg (a.y - b.y),
    mul_self_nonneg (a.z - b.z)]

lemma Vec3.distanceTo_nonneg (a b : Vec3) : 0 ≤ a.distanceTo b :=
  Real.sqrt_nonneg _

/-- The guard `distanceTo < r` reduces to an exact comparison of squares. -/
lemma Vec3.distanceTo_lt_iff (a b : Vec3) {r : ℝ} (hr : 0 < r) :
    a.distanceTo b < r ↔ a.distanceToSquared b < r ^ 2 := by
  unfold Vec3.distanceTo
  exact Real.sqrt_lt' hr

/-- The negated guard `r ≤ distanceTo` reduces to a comparison of squares. -/
lemma Vec3.le_distanceTo_iff (a b : Vec3) {r : ℝ} (hr : 0 ≤ r) :
    r ≤ a.distanceTo b ↔ r ^ 2 ≤ a.distanceToSquared b := by
  unfold Vec3.distanceTo
  exact Real.le_sqrt hr (a.distanceToSquared_nonneg b)

/-- Distance between two points on the x-axis is the absolute coordinate
difference: lets concrete distances evaluate without a symbolic square root. -/
lemma Vec3.distanceTo_xaxis (a b : ℝ) :
    Vec3.distanceTo ⟨a, 0, 0⟩ ⟨b, 0, 0⟩ = |a - b| := by
  unfold Vec3.distanceTo Vec3.distanceToSquared
  simp only
  rw [show (a - b) * (a - b) + (0 - 0) * (0 - 0) + ((0:ℝ) - 0) * (0 - 0)
        = (a - b) * (a - b) by ring]
  exact Real.sqrt_mul_self_eq_abs _

@[simp] lemma Vec3.distanceTo_self (a : Vec3) : a.distanceTo a = 0 := by
  unfold Vec3.distanceTo Vec3.distanceToSquared
  simp

/-- A clip plane, modelling `THREE.Plane` (unit normal plus constant term). -/
@[ext] structure Plane where
  normal : Vec3
  constant : ℝ

/-- Plane construction from `THREE.Plane.setFromNormalAndCoplanarPoint`:
copies the normal and sets `constant = -point.dot(normal)`. -/
def Plane.setFromNormalAndCoplanarPoint (n point : Vec3) : Plane :=
  ⟨n, -(point.dot n)⟩

/-- Cross-section creation (`createCrossSection` in `Viewer3D`): builds the
clip plane through the pick point with the given normal. -/
def createCrossSection (point n : Vec3) : Plane :=
  Plane.setFromNormalAndCoplanarPoint n point

/-- Slider offset effect (`crossSectionPlaneRef.current.constant =
-crossSectionValue` in the cross-section `useEffect`): rewrites the plane's
constant term to the negated slider value. -/
def setCrossSectionOffset (value : ℝ) (pl : Plane) : Plane :=
  { pl with constant := -value }

/-- C7: after `createSection(p, n)` followed by `setOffset(v)` with
`v ∈ [-5, 5]`, the active clip plane's constant term equals exactly `-v`,
independently of the original pick point `p` and of the constant term at
creation time. -/
theorem crossSection_offset_constant (p n : Vec3) (v : ℝ)
    (_hlo : -5 ≤ v) (_hhi : v ≤ 5) :
    (setCrossSectionOffset v (createCrossSection p n)).constant = -v := rfl

/-- Witness for `crossSection_offset_constant`: `setOffset(2.5)` after a
cross-section through a concrete point yields constant `-2.5`. -/
theorem crossSection_offset_constant_witness :
    (setCrossSectionOffset 2.5 (createCrossSection ⟨1, 2, 3⟩ ⟨0, 1, 0⟩)).constant = -2.5 :=
  crossSection_offset_constant ⟨1, 2, 3⟩ ⟨0, 1, 0⟩ 2.5 (by norm_num) (by norm_num)

/-! ## List buffer helpers

The position buffer attribute is a list of vectors; `setXYZ i` is `List.set`
and `fromBufferAttribute(position, i)` is `List.getD i Vec3.zero` (all real
reads are in range, so the default never matters). -/

lemma List.getD_set_self (l : List Vec3) (i : ℕ) (x d : Vec3) (h : i < l.length) :
    (l.set i x).getD i d = x := by
  induction l generalizing i with
  | nil => simp at h
  | cons a t ih =>
    cases i with
    | zero => simp [List.getD]
    | succ j =>
      simp only [List.set, List.getD_cons_succ]
      exact ih j (by simpa using h)

lemma List.getD_set_ne (l : List Vec3) (i j : ℕ) (x d : Vec3) (h : i ≠ j) :
    (l.set i x).getD j d = l.getD j d := by
  induction l generalizing i j with
  | nil => simp
  | cons a t ih =>
    cases i with
    | zero =>
      cases j with
      | zero => exact absurd rfl h
      | succ k => simp [List.getD]
    | succ i' =>
      cases j with
      | zero => simp [List.getD]
      | succ k =>
        simp only [List.set, List.getD_cons_succ]
        exact ih i' k (fun e => h (congrArg Nat.succ e))

lemma List.set_getD_self (l : List Vec3) (i : ℕ) (d : Vec3) :
    l.set i (l.getD i d) = l := by
  induction l generalizing i with
  | nil => simp
  | cons a t ih =>
    cases i with
    | zero => simp [List.getD]
    | succ j => simp only [List.set, List.getD_cons_succ]; rw [ih]

/-! ## Deformation engine -/

/-- The three sculpting brush modes that reach `applyDeformation`
(the `mode` prop restricted to the cases of its `switch`). -/
inductive DeformMode
  | push
  | smooth
  | scale
deriving DecidableEq

/-- Neighbor query (`findNeighborVertices` in `Viewer3D`): scans every index
`i` of the position buffer, skips the queried vertex itself (`i !==
vertexIndex`), and collects those with `vertex.distanceTo(neighborVertex) <
0.1`. -/
noncomputable def findNeighborVertices (vertexIndex : ℕ) (position : List Vec3) : List ℕ :=
  (List.range position.length).filter fun i =>
    i ≠ vertexIndex ∧
      (position.getD vertexIndex Vec3.zero).distanceTo (position.getD i Vec3.zero) < 0.1

/-- Centroid computation (`calculateAveragePosition` in `Viewer3D`): sums the
positions at the given indices starting from the zero vector and divides by
the count only when it is positive (`if (indices.length > 0)
avg.divideScalar(indices.length)`). -/
noncomputable def calculateAveragePosition (indices : List ℕ) (position : List Vec3) : Vec3 :=
  let avg := indices.foldl (fun acc index => acc + position.getD index Vec3.zero) Vec3.zero
  if indices.length > 0 then avg.smul (1 / (indices.length : ℝ)) else avg

/-- One iteration of the `for` loop of `applyDeformation`: reads vertex `i`
from the current (already partially mutated) buffer, and if it lies strictly
within `radius` of the pick point, writes back the mode-dependent update.
The `push` normal is read from the untouched pre-pass normal buffer `ns`;
the `smooth` neighbor search and centroid read the current buffer. -/
noncomputable def deformStep (mode : DeformMode) (point : Vec3) (radius strength : ℝ)
    (ns : List Vec3) (buf : List Vec3) (i : ℕ) : List Vec3 :=
  let vertex := buf.getD i Vec3.zero
  let distance := vertex.distanceTo point
  if distance < radius then
    let influence := 1 - distance / radius
    let vertex' :=
      match mode with
      | .push => vertex + (ns.getD i Vec3.zero).smul (strength * influence)
      | .smooth =>
          vertex.lerp (calculateAveragePosition (findNeighborVertices i buf) buf)
            (strength * influence)
      | .scale => ((vertex - point).smul (1 + strength * influence)) + point
    buf.set i vertex'
  else buf

/-- The position-buffer pass of `applyDeformation`: the loop
`for (let i = 0; i < position.count; i++)` threading the buffer through
`deformStep` in index order. -/
noncomputable def deformPass (mode : DeformMode) (point : Vec3) (radius strength : ℝ)
    (ns : List Vec3) (position : List Vec3) : List Vec3 :=
  (List.range position.length).foldl (deformStep mode point radius strength ns) position

/-- The buffer state after the loop has processed indices `0, …, v-1`:
the buffer `deformStep` sees when it reaches vertex `v`. -/
noncomputable def deformPrefix (mode : DeformMode) (point : Vec3) (radius strength : ℝ)
    (ns : List Vec3) (position : List Vec3) (v : ℕ) : List Vec3 :=
  (List.range v).foldl (deformStep mode point radius strength ns) position

/-- Unnormalised face normal for triangle `t` of a non-indexed triangle soup
(the geometry produced by `STLLoader`): `computeVertexNormals` computes
`cb = pC - pB`, `ab = pA - pB`, `cb.cross(ab)` for corners `3t, 3t+1, 3t+2`. -/
def faceCross (position : List Vec3) (t : ℕ) : Vec3 :=
  let pA := position.getD (3 * t) Vec3.zero
  let pB := position.getD (3 * t + 1) Vec3.zero
  let pC := position.getD (3 * t + 2) Vec3.zero
  (pC - pB).cross (pA - pB)

/-- Normal recomputation, `BufferGeometry.computeVertexNormals` on the
non-indexed path: each vertex receives the cross product of its triangle's
edges, then `normalizeNormals` normalises every entry. -/
noncomputable def computeVertexNormals (position : List Vec3) : List Vec3 :=
  (List.range position.length).map fun i => (faceCross position (i / 3)).normalize

/-- Deformation entry point (`applyDeformation` in `Viewer3D`): runs the
in-place per-vertex loop over the position buffer, then recomputes the vertex
normals from the updated positions (`geometry.computeVertexNormals()`).
Returns (new position buffer, new normal buffer). -/
noncomputable def applyDeformation (mode : DeformMode) (point : Vec3)
    (radius strength : ℝ) (position ns : List Vec3) : List Vec3 × List Vec3 :=
  let position' := deformPass mode point radius strength ns position
  (position', computeVertexNormals position')

/-- Modelled from the spec: the snapshot-then-write deformation pass the spec
prescribes ("All vertex updates for one invocation are computed from a
position snapshot current at call time", implemented "via a duplicated
position buffer read each pass").  Every read — the vertex itself, the
neighbor search, and the centroid — comes from the call-time buffer
`position`; the per-vertex formulas are those of `applyDeformation`. -/
noncomputable def applyDeformationSnapshot (mode : DeformMode) (point : Vec3)
    (radius strength : ℝ) (position ns : List Vec3) : List Vec3 :=
  (List.range position.length).map fun i =>
    let vertex := position.getD i Vec3.zero
    let distance := vertex.distanceTo point
    if distance < radius then
      let influence := 1 - distance / radius
      match mode with
      | .push => vertex + (ns.getD i Vec3.zero).smul (strength * influence)
      | .smooth =>
          vertex.lerp (calculateAveragePosition (findNeighborVertices i position) position)
            (strength * influence)
      | .scale => ((vertex - point).smul (1 + strength * influence)) + point
    else vertex

/-! ## Structure of the in-place pass

Each loop iteration writes at most its own index, so the pass preserves the
buffer length, leaves indices outside the processed range untouched, and the
final value at `v` is produced by the step at `v` acting on the buffer that
the earlier iterations left behind. -/

lemma deformStep_length (m : DeformMode) (p : Vec3) (r s : ℝ) (ns buf : List Vec3) (i : ℕ) :
    (deformStep m p r s ns buf i).length = buf.length := by
  unfold deformStep
  dsimp only
  split <;> simp

lemma deformStep_getD_ne (m : DeformMode) (p : Vec3) (r s : ℝ) (ns buf : List Vec3)
    (i j : ℕ) (d : Vec3) (h : i ≠ j) :
    (deformStep m p r s ns buf i).getD j d = buf.getD j d := by
  unfold deformStep
  dsimp only
  split
  · exact List.getD_set_ne _ _ _ _ _ h
  · rfl

lemma foldl_deformStep_getD_notmem (m : DeformMode) (p : Vec3) (r s : ℝ) (ns : List Vec3)
    (is : List ℕ) (j : ℕ) (d : Vec3) :
    ∀ buf : List Vec3, (∀ i ∈ is, i ≠ j) →
      (is.foldl (deformStep m p r s ns) buf).getD j d = buf.getD j d := by
  induction is with
  | nil => intro buf _; rfl
  | cons a t ih =>
    intro buf h
    simp only [List.foldl_cons]
    rw [ih _ fun i hi => h i (List.mem_cons_of_mem a hi)]
    exact deformStep_getD_ne m p r s ns buf a j d (h a (List.mem_cons_self a t))

lemma foldl_deformStep_length (m : DeformMode) (p : Vec3) (r s : ℝ) (ns : List Vec3)
    (is : List ℕ) : ∀ buf : List Vec3,
    (is.foldl (deformStep m p r s ns) buf).length = buf.length := by
  induction is with
  | nil => intro buf; rfl
  | cons a t ih =>
    intro buf
    simp only [List.foldl_cons]
    rw [ih, deformStep_length]

/-- The buffer that iteration `v` sees still holds the call-time value of
vertex `v`: the earlier iterations wrote only their own indices. -/
lemma deformPrefix_getD_self (m : DeformMode) (p : Vec3) (r s : ℝ)
    (ns position : List Vec3) (v : ℕ) (d : Vec3) :
    (deformPrefix m p r s ns position v).getD v d = position.getD v d := by
  unfold deformPrefix
  exact foldl_deformStep_getD_notmem m p r s ns (List.range v) v d position
    fun i hi => Nat.ne_of_lt (List.mem_range.mp hi)

lemma deformPrefix_length (m : DeformMode) (p : Vec3) (r s : ℝ)
    (ns position : List Vec3) (v : ℕ) :
    (deformPrefix m p r s ns position v).length = position.length := by
  unfold deformPrefix
  exact foldl_deformStep_length m p r s ns (List.range v) position

lemma deformPass_length (m : DeformMode) (p : Vec3) (r s : ℝ) (ns position : List Vec3) :
    (deformPass m p r s ns position).length = position.length := by
  unfold deformPass
  exact foldl_deformStep_length m p r s ns _ position

lemma foldl_deformStep_range_getD (m : DeformMode) (p : Vec3) (r s : ℝ) (ns : List Vec3)
    (position : List Vec3) (d : Vec3) :
    ∀ n v : ℕ, v < n →
      ((List.range n).foldl (deformStep m p r s ns) position).getD v d
        = (deformStep m p r s ns (deformPrefix m p r s ns position v) v).getD v d := by
  intro n
  induction n with
  | zero => intro v hv; omega
  | succ n ih =>
    intro v hv
    rw [List.range_succ, List.foldl_append]
    simp only [List.foldl_cons, List.foldl_nil]
    rcases Nat.lt_succ_iff_lt_or_eq.mp hv with h | h
    · rw [deformStep_getD_ne m p r s ns _ n v d (Nat.ne_of_gt h)]
      exact ih v h
    · subst h; rfl

/-- The final value of vertex `v` after the whole pass is what iteration `v`
wrote into the buffer the earlier iterations left behind. -/
lemma deformPass_getD (m : DeformMode) (p : Vec3) (r s : ℝ) (ns position : List Vec3)
    (v : ℕ) (d : Vec3) (hv : v < position.length) :
    (deformPass m p r s ns position).getD v d
      = (deformStep m p r s ns (deformPrefix m p r s ns position v) v).getD v d :=
  foldl_deformStep_range_getD m p r s ns position d position.length v hv

lemma List.ext_getD (l1 l2 : List Vec3) (h : l1.length = l2.length)
    (hg : ∀ i, i < l1.length → l1.getD i Vec3.zero = l2.getD i Vec3.zero) : l1 = l2 := by
  induction l1 generalizing l2 with
  | nil => cases l2 with
    | nil => rfl
    | cons b t => simp at h
  | cons a t ih =>
    cases l2 with
    | nil => simp at h
    | cons b t' =>
      have h0 := hg 0 (by simp)
      simp only [List.getD_cons_zero] at h0
      subst h0
      congr 1
      exact ih t' (by simpa using h) fun i hi => hg (i + 1) (by simpa using hi)

lemma List.getD_map_range (f : ℕ → Vec3) (n v : ℕ) (d : Vec3) (h : v < n) :
    ((List.range n).map f).getD v d = f v := by
  induction n with
  | zero => omega
  | succ n ih =>
    rw [List.range_succ, List.map_append]
    rcases Nat.lt_succ_iff_lt_or_eq.mp h with h' | h'
    · rw [List.getD_append _ _ _ _ (by simpa using h')]
      exact ih h'
    · subst h'
      rw [List.getD_append_right _ _ _ _ (by simp)]
      simp

/-- A `scale` step with `strength = 0` writes the vertex back unchanged. -/
lemma deformStep_scale_zero (p : Vec3) (r : ℝ) (ns buf : List Vec3) (i : ℕ) :
    deformStep .scale p r 0 ns buf i = buf := by
  unfold deformStep
  dsimp only
  split
  · rw [show ((buf.getD i Vec3.zero - p).smul
        (1 + 0 * (1 - (buf.getD i Vec3.zero).distanceTo p / r))) + p
        = buf.getD i Vec3.zero by ext <;> simp [Vec3.smul]]
    exact List.set_getD_self buf i Vec3.zero
  · rfl

/-- C8: applying the `scale` deformation with `strength = 0` is a no-op on
the vertex positions, for every pick point, radius, and buffer. -/
theorem scale_zero_strength_noop (p : Vec3) (r : ℝ) (pos ns : List Vec3) :
    (applyDeformation .scale p r 0 pos ns).1 = pos := by
  show deformPass .scale p r 0 ns pos = pos
  unfold deformPass
  generalize List.range pos.length = is
  induction is generalizing pos with
  | nil => rfl
  | cons a t ih =>
    simp only [List.foldl_cons]
    rw [deformStep_scale_zero]
    exact ih pos

/-- C2 (amended): every vertex at distance at least `radius` from the pick
point keeps its exact position through a deformation call, in every mode.
(The normals, by contrast, are recomputed wholesale; see the counterexample.) -/
theorem deform_far_vertex_position_unchanged (m : DeformMode) (p : Vec3) (r s : ℝ)
    (pos ns : List Vec3) (v : ℕ) (hv : v < pos.length)
    (hfar : r ≤ (pos.getD v Vec3.zero).distanceTo p) :
    (applyDeformation m p r s pos ns).1.getD v Vec3.zero = pos.getD v Vec3.zero := by
  show (deformPass m p r s ns pos).getD v Vec3.zero = pos.getD v Vec3.zero
  rw [deformPass_getD m p r s ns pos v Vec3.zero hv]
  unfold deformStep
  dsimp only
  rw [deformPrefix_getD_self]
  rw [if_neg (not_lt.mpr hfar)]
  exact deformPrefix_getD_self m p r s ns pos v Vec3.zero

/-- Witness for `deform_far_vertex_position_unchanged`: a push at the origin
with radius 1 does not move a vertex at distance 3. -/
theorem deform_far_vertex_position_unchanged_witness :
    (applyDeformation .push ⟨0, 0, 0⟩ 1 0.5 [⟨3, 0, 0⟩] [⟨0, 0, 1⟩]).1.getD 0 Vec3.zero
      = Vec3.mk 3 0 0 :=
  deform_far_vertex_position_unchanged .push ⟨0, 0, 0⟩ 1 0.5 [⟨3, 0, 0⟩] [⟨0, 0, 1⟩] 0
    (by simp)
    (by rw [show (([⟨3, 0, 0⟩] : List Vec3).getD 0 Vec3.zero) = ⟨3, 0, 0⟩ from rfl,
          Vec3.distanceTo_xaxis]; norm_num)

/-- C1 (amended): for the `push` and `scale` brushes each vertex update is a
function of the vertex's own call-time position (and, for `push`, its
pre-pass normal) alone, so the in-place pass coincides with the snapshot
semantics and is independent of iteration order; and in every mode the
vertex normals are recomputed from the updated positions afterwards.
For `smooth` the in-place pass can diverge from the snapshot semantics
(see the counterexample), because the neighbor search and centroid re-read
positions already modified in the same pass. -/
theorem push_scale_snapshot_and_normals (m : DeformMode) (p : Vec3) (r s : ℝ)
    (pos ns : List Vec3) (hm : m = .push ∨ m = .scale) :
    (applyDeformation m p r s pos ns).1 = applyDeformationSnapshot m p r s pos ns
    ∧ (applyDeformation m p r s pos ns).2
        = computeVertexNormals (applyDeformation m p r s pos ns).1 := by
  constructor
  · apply List.ext_getD
    · rw [show (applyDeformation m p r s pos ns).1 = deformPass m p r s ns pos from rfl,
        deformPass_length]
      unfold applyDeformationSnapshot
      simp
    · intro v hv
      rw [show (applyDeformation m p r s pos ns).1 = deformPass m p r s ns pos from rfl]
        at hv ⊢
      rw [deformPass_length] at hv
      rw [deformPass_getD m p r s ns pos v Vec3.zero hv]
      unfold applyDeformationSnapshot
      rw [List.getD_map_range _ _ _ _ hv]
      rcases hm with h | h <;> subst h <;> unfold deformStep <;> dsimp only <;>
        rw [deformPrefix_getD_self] <;> split_ifs with hc <;>
        first
          | rw [List.getD_set_self _ _ _ _ (by rw [deformPrefix_length]; exact hv)]
          | exact deformPrefix_getD_self _ _ _ _ _ _ _ _
  · rfl

/-- Witness for `push_scale_snapshot_and_normals`: a concrete push pass on a
one-vertex mesh agrees with the snapshot pass. -/
theorem push_scale_snapshot_and_normals_witness :
    (applyDeformation .push ⟨0, 0, 0⟩ 1 0.5 [⟨1, 0, 0⟩] [⟨0, 1, 0⟩]).1
      = applyDeformationSnapshot .push ⟨0, 0, 0⟩ 1 0.5 [⟨1, 0, 0⟩] [⟨0, 1, 0⟩] :=
  (push_scale_snapshot_and_normals .push ⟨0, 0, 0⟩ 1 0.5 [⟨1, 0, 0⟩] [⟨0, 1, 0⟩]
    (Or.inl rfl)).1

/-- C2 (counterexample): the claim "positions and normals of vertices at
distance at least `r` are bit-identical after `deform`" fails on the normals:
`applyDeformation` ends with `geometry.computeVertexNormals()`, which
overwrites every vertex normal with one recomputed from face geometry.  On a
single triangle whose stored normals are `(1,0,0)` but whose face normal is
`(0,0,1)`, a push at distance about 100 (far outside `radius = 1`) leaves
vertex 0's position unchanged yet replaces its normal. -/
theorem deform_far_vertex_normal_changed :
    1 ≤ (([⟨0, 0, 0⟩, ⟨1, 0, 0⟩, ⟨0, 1, 0⟩] : List Vec3).getD 0 Vec3.zero).distanceTo
        ⟨100, 0, 0⟩
    ∧ (applyDeformation .push ⟨100, 0, 0⟩ 1 0.5 [⟨0, 0, 0⟩, ⟨1, 0, 0⟩, ⟨0, 1, 0⟩]
        [⟨1, 0, 0⟩, ⟨1, 0, 0⟩, ⟨1, 0, 0⟩]).1.getD 0 Vec3.zero
        = ([⟨0, 0, 0⟩, ⟨1, 0, 0⟩, ⟨0, 1, 0⟩] : List Vec3).getD 0 Vec3.zero
    ∧ (applyDeformation .push ⟨100, 0, 0⟩ 1 0.5 [⟨0, 0, 0⟩, ⟨1, 0, 0⟩, ⟨0, 1, 0⟩]
        [⟨1, 0, 0⟩, ⟨1, 0, 0⟩, ⟨1, 0, 0⟩]).2.getD 0 Vec3.zero
        ≠ ([⟨1, 0, 0⟩, ⟨1, 0, 0⟩, ⟨1, 0, 0⟩] : List Vec3).getD 0 Vec3.zero := by
  have hfar : ∀ v < 3, (1:ℝ) ≤
      (([⟨0, 0, 0⟩, ⟨1, 0, 0⟩, ⟨0, 1, 0⟩] : List Vec3).getD v Vec3.zero).distanceTo
        ⟨100, 0, 0⟩ := by
    intro v hv
    interval_cases v <;>
      · rw [Vec3.le_distanceTo_iff _ _ (by norm_num)]
        norm_num [Vec3.distanceToSquared, List.getD]
  have hpass : deformPass .push ⟨100, 0, 0⟩ 1 0.5 [⟨1, 0, 0⟩, ⟨1, 0, 0⟩, ⟨1, 0, 0⟩]
      [⟨0, 0, 0⟩, ⟨1, 0, 0⟩, ⟨0, 1, 0⟩] = [⟨0, 0, 0⟩, ⟨1, 0, 0⟩, ⟨0, 1, 0⟩] := by
    apply List.ext_getD
    · rw [deformPass_length]
    · intro v hv
      rw [deformPass_length] at hv
      exact deform_far_vertex_position_unchanged .push ⟨100, 0, 0⟩ 1 0.5
        [⟨0, 0, 0⟩, ⟨1, 0, 0⟩, ⟨0, 1, 0⟩] [⟨1, 0, 0⟩, ⟨1, 0, 0⟩, ⟨1, 0, 0⟩] v hv
        (hfar v (by simpa using hv))
  refine ⟨hfar 0 (by norm_num), ?_, ?_⟩
  · show (deformPass .push ⟨100, 0, 0⟩ 1 0.5 [⟨1, 0, 0⟩, ⟨1, 0, 0⟩, ⟨1, 0, 0⟩]
      [⟨0, 0, 0⟩, ⟨1, 0, 0⟩, ⟨0, 1, 0⟩]).getD 0 Vec3.zero
      = ([⟨0, 0, 0⟩, ⟨1, 0, 0⟩, ⟨0, 1, 0⟩] : List Vec3).getD 0 Vec3.zero
    rw [hpass]
  · show (computeVertexNormals (deformPass .push ⟨100, 0, 0⟩ 1 0.5
      [⟨1, 0, 0⟩, ⟨1, 0, 0⟩, ⟨1, 0, 0⟩] [⟨0, 0, 0⟩, ⟨1, 0, 0⟩, ⟨0, 1, 0⟩])).getD 0 Vec3.zero
      ≠ ([⟨1, 0, 0⟩, ⟨1, 0, 0⟩, ⟨1, 0, 0⟩] : List Vec3).getD 0 Vec3.zero
    rw [hpass]
    unfold computeVertexNormals
    rw [List.getD_map_range _ _ _ _ (by norm_num)]
    have hface : faceCross [⟨0, 0, 0⟩, ⟨1, 0, 0⟩, ⟨0, 1, 0⟩] (0 / 3) = ⟨0, 0, 1⟩ := by
      norm_num [faceCross, Vec3.cross, List.getD]
    rw [hface]
    have hnorm : (Vec3.mk 0 0 1).normalize = ⟨0, 0, 1⟩ := by
      unfold Vec3.normalize Vec3.length
      norm_num [Vec3.smul, Real.sqrt_one]
    rw [hnorm]
    intro h
    have := congrArg Vec3.x h
    norm_num [List.getD] at this

/-! ## Concrete smooth-pass evaluation

Two vertices 0.06 apart on the x-axis, both inside the brush radius and
within the 0.1 neighbor threshold of each other: iteration 0 moves vertex 0,
and iteration 1's neighbor centroid then reads the already-moved value. -/

lemma Vec3.distanceTo_xaxis_of_le (a b : ℝ) (h : a ≤ b) :
    Vec3.distanceTo ⟨a, 0, 0⟩ ⟨b, 0, 0⟩ = b - a := by
  rw [Vec3.distanceTo_xaxis, abs_sub_comm, abs_of_nonneg (by linarith)]

/-- Position buffer of the two-vertex smooth counterexample. -/
noncomputable def c1pos : List Vec3 := [⟨0, 0, 0⟩, ⟨0.06, 0, 0⟩]

/-- Normal buffer of the two-vertex smooth counterexample (unused by the
smooth branch, present because `applyDeformation` takes both buffers). -/
noncomputable def c1ns : List Vec3 := [⟨0, 0, 1⟩, ⟨0, 0, 1⟩]

lemma c1_d01 : (Vec3.mk 0 0 0).distanceTo ⟨0.06, 0, 0⟩ = 0.06 := by
  rw [Vec3.distanceTo_xaxis_of_le 0 0.06 (by norm_num)]
  norm_num

lemma c1_d10 : (Vec3.mk 0.06 0 0).distanceTo ⟨0, 0, 0⟩ = 0.06 := by
  rw [Vec3.distanceTo_xaxis]
  rw [abs_of_nonneg (by norm_num)]
  norm_num

lemma c1_d1m : (Vec3.mk 0.06 0 0).distanceTo ⟨0.03, 0, 0⟩ = 0.03 := by
  rw [Vec3.distanceTo_xaxis]
  rw [abs_of_nonneg (by norm_num)]
  norm_num

lemma c1_neighbors0 : findNeighborVertices 0 c1pos = [1] := by
  unfold findNeighborVertices
  rw [show c1pos.length = 2 from rfl, show List.range 2 = [0, 1] from rfl]
  rw [show c1pos.getD 0 Vec3.zero = ⟨0, 0, 0⟩ from rfl]
  simp only [List.filter_cons, List.filter_nil, decide_eq_true_eq]
  rw [if_neg (by simp), if_pos ⟨one_ne_zero, by
    rw [show c1pos.getD 1 Vec3.zero = ⟨0.06, 0, 0⟩ from rfl, c1_d01]; norm_num⟩]

lemma c1_avg0 : calculateAveragePosition [1] c1pos = ⟨0.06, 0, 0⟩ := by
  unfold calculateAveragePosition
  rw [show ([1] : List ℕ).foldl (fun acc index => acc + c1pos.getD index Vec3.zero) Vec3.zero
      = Vec3.zero + c1pos.getD 1 Vec3.zero from rfl]
  rw [show c1pos.getD 1 Vec3.zero = ⟨0.06, 0, 0⟩ from rfl]
  norm_num [Vec3.zero, Vec3.smul]

lemma c1_step0 : deformStep .smooth ⟨0, 0, 0⟩ 1 (1/2) c1ns c1pos 0
    = [⟨0.03, 0, 0⟩, ⟨0.06, 0, 0⟩] := by
  unfold deformStep
  dsimp only
  rw [show c1pos.getD 0 Vec3.zero = ⟨0, 0, 0⟩ from rfl]
  rw [Vec3.distanceTo_self]
  rw [if_pos (by norm_num : (0:ℝ) < 1)]
  rw [c1_neighbors0, c1_avg0]
  show c1pos.set 0 _ = _
  rw [show c1pos = [⟨0, 0, 0⟩, ⟨0.06, 0, 0⟩] from rfl]
  simp only [List.set]
  norm_num [Vec3.lerp]

/-- The buffer iteration 1 sees: vertex 0 has already moved to `0.03`. -/
lemma c1_prefix1 : deformPrefix .smooth ⟨0, 0, 0⟩ 1 (1/2) c1ns c1pos 1
    = [⟨0.03, 0, 0⟩, ⟨0.06, 0, 0⟩] := by
  unfold deformPrefix
  rw [show List.range 1 = [0] from rfl]
  simp only [List.foldl_cons, List.foldl_nil]
  exact c1_step0

lemma c1_neighbors1 : findNeighborVertices 1 [⟨0.03, 0, 0⟩, ⟨0.06, 0, 0⟩] = [0] := by
  unfold findNeighborVertices
  rw [show ([⟨0.03, 0, 0⟩, ⟨0.06, 0, 0⟩] : List Vec3).length = 2 from rfl,
    show List.range 2 = [0, 1] from rfl]
  rw [show ([⟨0.03, 0, 0⟩, ⟨0.06, 0, 0⟩] : List Vec3).getD 1 Vec3.zero
      = ⟨0.06, 0, 0⟩ from rfl]
  simp only [List.filter_cons, List.filter_nil, decide_eq_true_eq]
  rw [if_pos ⟨zero_ne_one, by
      rw [show ([⟨0.03, 0, 0⟩, ⟨0.06, 0, 0⟩] : List Vec3).getD 0 Vec3.zero
          = ⟨0.03, 0, 0⟩ from rfl, c1_d1m]; norm_num⟩,
    if_neg (by simp)]

lemma c1_avg1 : calculateAveragePosition [0] [⟨0.03, 0, 0⟩, ⟨0.06, 0, 0⟩] = ⟨0.03, 0, 0⟩ := by
  unfold calculateAveragePosition
  rw [show ([0] : List ℕ).foldl
      (fun acc index => acc + ([⟨0.03, 0, 0⟩, ⟨0.06, 0, 0⟩] : List Vec3).getD index Vec3.zero)
      Vec3.zero = Vec3.zero + ⟨0.03, 0, 0⟩ from rfl]
  norm_num [Vec3.zero, Vec3.smul]

/-- Iteration 1 of the in-place pass: the centroid it uses is the
already-updated `0.03`, producing `x = 0.0459`. -/
lemma c1_inplace_vertex1 :
    (applyDeformation .smooth ⟨0, 0, 0⟩ 1 (1/2) c1pos c1ns).1.getD 1 Vec3.zero
      = ⟨0.0459, 0, 0⟩ := by
  show (deformPass .smooth ⟨0, 0, 0⟩ 1 (1/2) c1ns c1pos).getD 1 Vec3.zero = _
  rw [deformPass_getD _ _ _ _ _ _ _ _ (by rw [show c1pos.length = 2 from rfl]; norm_num)]
  rw [c1_prefix1]
  unfold deformStep
  dsimp only
  rw [show ([⟨0.03, 0, 0⟩, ⟨0.06, 0, 0⟩] : List Vec3).getD 1 Vec3.zero
      = ⟨0.06, 0, 0⟩ from rfl]
  rw [c1_d10]
  rw [if_pos (by norm_num : (0.06:ℝ) < 1)]
  rw [c1_neighbors1, c1_avg1]
  rw [show ([⟨0.03, 0, 0⟩, ⟨0.06, 0, 0⟩] : List Vec3).set 1
      ((Vec3.mk 0.06 0 0).lerp ⟨0.03, 0, 0⟩ (1/2 * (1 - 0.06 / 1)))
      = [⟨0.03, 0, 0⟩, (Vec3.mk 0.06 0 0).lerp ⟨0.03, 0, 0⟩ (1/2 * (1 - 0.06 / 1))] from rfl]
  rw [List.getD_cons_succ, List.getD_cons_zero]
  norm_num [Vec3.lerp]

/-- The snapshot pass at vertex 1 reads the call-time value of vertex 0
(the origin), producing `x = 0.0318`. -/
lemma c1_snapshot_vertex1 :
    (applyDeformationSnapshot .smooth ⟨0, 0, 0⟩ 1 (1/2) c1pos c1ns).getD 1 Vec3.zero
      = ⟨0.0318, 0, 0⟩ := by
  unfold applyDeformationSnapshot
  rw [List.getD_map_range _ _ _ _ (by rw [show c1pos.length = 2 from rfl]; norm_num)]
  dsimp only
  rw [show c1pos.getD 1 Vec3.zero = ⟨0.06, 0, 0⟩ from rfl]
  rw [c1_d10]
  rw [if_pos (by norm_num : (0.06:ℝ) < 1)]
  have hn : findNeighborVertices 1 c1pos = [0] := by
    unfold findNeighborVertices
    rw [show c1pos.length = 2 from rfl, show List.range 2 = [0, 1] from rfl]
    rw [show c1pos.getD 1 Vec3.zero = ⟨0.06, 0, 0⟩ from rfl]
    simp only [List.filter_cons, List.filter_nil, decide_eq_true_eq]
    rw [if_pos ⟨zero_ne_one, by
        rw [show c1pos.getD 0 Vec3.zero = ⟨0, 0, 0⟩ from rfl, c1_d10]; norm_num⟩,
      if_neg (by simp)]
  rw [hn]
  have ha : calculateAveragePosition [0] c1pos = ⟨0, 0, 0⟩ := by
    unfold calculateAveragePosition
    rw [show ([0] : List ℕ).foldl (fun acc index => acc + c1pos.getD index Vec3.zero)
        Vec3.zero = Vec3.zero + ⟨0, 0, 0⟩ from rfl]
    norm_num [Vec3.zero, Vec3.smul]
  rw [ha]
  norm_num [Vec3.lerp]

/-- C1 (counterexample): a single smooth invocation does NOT compute all
updates from a call-time snapshot — on two vertices 0.06 apart, the pass
yields `x = 0.0459` for vertex 1 (centroid read after vertex 0 moved) while
the snapshot semantics yields `x = 0.0318`, so the outcome depends on
positions already modified in the same pass. -/
theorem smooth_in_place_differs_from_snapshot :
    (applyDeformation .smooth ⟨0, 0, 0⟩ 1 (1/2) c1pos c1ns).1.getD 1 Vec3.zero
      ≠ (applyDeformationSnapshot .smooth ⟨0, 0, 0⟩ 1 (1/2) c1pos c1ns).getD 1 Vec3.zero := by
  rw [c1_inplace_vertex1, c1_snapshot_vertex1]
  intro h
  have hx := congrArg Vec3.x h
  norm_num at hx

/-- C10 (amended): under the smooth brush, a vertex inside the brush radius
whose neighbor search (run against the buffer state at its loop iteration)
comes up empty is lerped toward the origin: its new position is
`(1 - strength*influence) • old`, which differs from the old position
whenever the vertex is not itself at the origin (and `strength > 0`). -/
theorem smooth_isolated_lerp_toward_origin (p : Vec3) (r s : ℝ)
    (pos ns : List Vec3) (v : ℕ) (hv : v < pos.length)
    (hiso : ∀ j < pos.length, j ≠ v →
      0.1 ≤ (pos.getD v Vec3.zero).distanceTo
        ((deformPrefix .smooth p r s ns pos v).getD j Vec3.zero))
    (hin : (pos.getD v Vec3.zero).distanceTo p < r)
    (hnz : pos.getD v Vec3.zero ≠ Vec3.zero)
    (hs : 0 < s) :
    (applyDeformation .smooth p r s pos ns).1.getD v Vec3.zero
      = (pos.getD v Vec3.zero).smul
          (1 - s * (1 - (pos.getD v Vec3.zero).distanceTo p / r))
    ∧ (applyDeformation .smooth p r s pos ns).1.getD v Vec3.zero
        ≠ pos.getD v Vec3.zero := by
  have hd0 : 0 ≤ (pos.getD v Vec3.zero).distanceTo p := Vec3.distanceTo_nonneg _ _
  have hr : 0 < r := lt_of_le_of_lt hd0 hin
  have ht : 0 < s * (1 - (pos.getD v Vec3.zero).distanceTo p / r) := by
    apply mul_pos hs
    rw [sub_pos]
    exact (div_lt_one hr).mpr hin
  have hlen : (deformPrefix .smooth p r s ns pos v).length = pos.length :=
    deformPrefix_length _ _ _ _ _ _ _
  have hpre : (deformPrefix .smooth p r s ns pos v).getD v Vec3.zero
      = pos.getD v Vec3.zero :=
    deformPrefix_getD_self _ _ _ _ _ _ _ _
  have hnb : findNeighborVertices v (deformPrefix .smooth p r s ns pos v) = [] := by
    unfold findNeighborVertices
    rw [List.filter_eq_nil_iff]
    intro j hj
    simp only [decide_eq_true_eq, not_and]
    intro hjv
    rw [hpre, not_lt]
    exact hiso j (by rw [← hlen]; exact List.mem_range.mp hj) hjv
  have hmain : (applyDeformation .smooth p r s pos ns).1.getD v Vec3.zero
      = (pos.getD v Vec3.zero).smul
          (1 - s * (1 - (pos.getD v Vec3.zero).distanceTo p / r)) := by
    show (deformPass .smooth p r s ns pos).getD v Vec3.zero = _
    rw [deformPass_getD _ _ _ _ _ _ _ _ hv]
    unfold deformStep
    dsimp only
    rw [hpre, if_pos hin, hnb]
    rw [show calculateAveragePosition [] (deformPrefix .smooth p r s ns pos v)
        = Vec3.zero from rfl]
    rw [List.getD_set_self _ _ _ _ (by rw [hlen]; exact hv)]
    ext <;> simp [Vec3.lerp, Vec3.smul, Vec3.zero] <;> ring
  refine ⟨hmain, ?_⟩
  rw [hmain]
  intro h
  apply hnz
  have hx := congrArg Vec3.x h
  have hy := congrArg Vec3.y h
  have hz := congrArg Vec3.z h
  simp only [Vec3.smul] at hx hy hz
  have hxt : (pos.getD v Vec3.zero).x * (s * (1 - (pos.getD v Vec3.zero).distanceTo p / r))
      = 0 := by linear_combination -hx
  have hyt : (pos.getD v Vec3.zero).y * (s * (1 - (pos.getD v Vec3.zero).distanceTo p / r))
      = 0 := by linear_combination -hy
  have hzt : (pos.getD v Vec3.zero).z * (s * (1 - (pos.getD v Vec3.zero).distanceTo p / r))
      = 0 := by linear_combination -hz
  ext
  · rcases mul_eq_zero.mp hxt with h0 | h0
    · simpa [Vec3.zero] using h0
    · exact absurd h0 (ne_of_gt ht)
  · rcases mul_eq_zero.mp hyt with h0 | h0
    · simpa [Vec3.zero] using h0
    · exact absurd h0 (ne_of_gt ht)
  · rcases mul_eq_zero.mp hzt with h0 | h0
    · simpa [Vec3.zero] using h0
    · exact absurd h0 (ne_of_gt ht)

/-- Witness for `smooth_isolated_lerp_toward_origin`: a lone vertex at
`(1,0,0)`, picked exactly, moves (to `(1/2, 0, 0)`). -/
theorem smooth_isolated_lerp_toward_origin_witness :
    (applyDeformation .smooth ⟨1, 0, 0⟩ 1 (1/2) [⟨1, 0, 0⟩] [⟨0, 0, 1⟩]).1.getD 0 Vec3.zero
      ≠ ([⟨1, 0, 0⟩] : List Vec3).getD 0 Vec3.zero :=
  (smooth_isolated_lerp_toward_origin ⟨1, 0, 0⟩ 1 (1/2) [⟨1, 0, 0⟩] [⟨0, 0, 1⟩] 0
    (by norm_num)
    (by intro j hj hne; exact absurd (Nat.lt_one_iff.mp (by simpa using hj)) hne)
    (by rw [show ([⟨1, 0, 0⟩] : List Vec3).getD 0 Vec3.zero = ⟨1, 0, 0⟩ from rfl,
          Vec3.distanceTo_self]; norm_num)
    (by intro h; exact one_ne_zero (congrArg Vec3.x h))
    (by norm_num)).2

/-- C10 (counterexample): an isolated vertex inside the brush radius that
sits exactly at the origin IS left unchanged by the smooth brush (its lerp
target is the zero centroid it already equals), contradicting the claim that
every such vertex is displaced. -/
theorem smooth_isolated_origin_vertex_unchanged :
    (Vec3.mk 0 0 0).distanceTo ⟨0, 0, 0⟩ < 1
    ∧ findNeighborVertices 0 [⟨0, 0, 0⟩] = []
    ∧ (applyDeformation .smooth ⟨0, 0, 0⟩ 1 (1/2) [⟨0, 0, 0⟩] [⟨0, 0, 1⟩]).1.getD 0 Vec3.zero
        = ([⟨0, 0, 0⟩] : List Vec3).getD 0 Vec3.zero := by
  have hnb : findNeighborVertices 0 [(⟨0, 0, 0⟩ : Vec3)] = [] := by
    unfold findNeighborVertices
    rw [show ([⟨0, 0, 0⟩] : List Vec3).length = 1 from rfl,
      show List.range 1 = [0] from rfl]
    simp only [List.filter_cons, List.filter_nil, decide_eq_true_eq]
    rw [if_neg (by simp)]
  refine ⟨by rw [Vec3.distanceTo_self]; norm_num, hnb, ?_⟩
  show (deformPass .smooth ⟨0, 0, 0⟩ 1 (1/2) [⟨0, 0, 1⟩] [⟨0, 0, 0⟩]).getD 0 Vec3.zero = _
  rw [deformPass_getD _ _ _ _ _ _ _ _ (by norm_num)]
  rw [show deformPrefix .smooth ⟨0, 0, 0⟩ 1 (1/2) [⟨0, 0, 1⟩] [⟨0, 0, 0⟩] 0
      = [⟨0, 0, 0⟩] from rfl]
  unfold deformStep
  dsimp only
  rw [show ([⟨0, 0, 0⟩] : List Vec3).getD 0 Vec3.zero = ⟨0, 0, 0⟩ from rfl]
  rw [Vec3.distanceTo_self, if_pos (by norm_num : (0:ℝ) < 1), hnb]
  rw [show calculateAveragePosition [] [(⟨0, 0, 0⟩ : Vec3)] = Vec3.zero from rfl]
  rw [show ([⟨0, 0, 0⟩] : List Vec3).set 0 ((Vec3.mk 0 0 0).lerp Vec3.zero
      (1/2 * (1 - 0 / 1))) = [(Vec3.mk 0 0 0).lerp Vec3.zero (1/2 * (1 - 0 / 1))] from rfl]
  rw [List.getD_cons_zero]
  ext <;> simp [Vec3.lerp, Vec3.zero]

/-- C4 (amended): the neighbor query returns exactly the in-range vertex
indices OTHER THAN the queried vertex itself whose Euclidean distance to the
queried vertex is strictly below the fixed 0.1 threshold. -/
theorem findNeighborVertices_mem_iff (v i : ℕ) (pos : List Vec3) :
    i ∈ findNeighborVertices v pos
      ↔ i < pos.length ∧ i ≠ v
          ∧ (pos.getD v Vec3.zero).distanceTo (pos.getD i Vec3.zero) < 0.1 := by
  unfold findNeighborVertices
  simp only [List.mem_filter, List.mem_range, decide_eq_true_eq]

/-- C4 (counterexample): the queried vertex itself is at distance `0 < 0.1`
from itself, yet is never returned — so the query does not return every
vertex at distance below the threshold. -/
theorem findNeighborVertices_excludes_self :
    ((([⟨0, 0, 0⟩, ⟨0.05, 0, 0⟩] : List Vec3).getD 0 Vec3.zero).distanceTo
        (([⟨0, 0, 0⟩, ⟨0.05, 0, 0⟩] : List Vec3).getD 0 Vec3.zero) < 0.1)
    ∧ 0 ∉ findNeighborVertices 0 [⟨0, 0, 0⟩, ⟨0.05, 0, 0⟩] := by
  constructor
  · rw [Vec3.distanceTo_self]; norm_num
  · unfold findNeighborVertices
    simp [List.mem_filter]

/-- Neighborlessness: when every other in-range vertex of the scanned buffer
is at distance at least 0.1, the query returns the empty list. -/
lemma findNeighborVertices_isolated (v : ℕ) (buf : List Vec3)
    (h : ∀ j < buf.length, j ≠ v →
      0.1 ≤ (buf.getD v Vec3.zero).distanceTo (buf.getD j Vec3.zero)) :
    findNeighborVertices v buf = [] := by
  unfold findNeighborVertices
  rw [List.filter_eq_nil_iff]
  intro j hj
  simp only [decide_eq_true_eq, not_and]
  intro hjv
  rw [not_lt]
  exact h j (List.mem_range.mp hj) hjv

lemma foldl_add_getD (pos : List Vec3) (indices : List ℕ) :
    ∀ acc : Vec3, indices.foldl (fun a i => a + pos.getD i Vec3.zero) acc
      = acc + (indices.map fun i => pos.getD i Vec3.zero).sum := by
  induction indices with
  | nil => intro acc; simp
  | cons j t ih =>
    intro acc
    simp only [List.foldl_cons, List.map_cons, List.sum_cons]
    rw [ih]
    ext <;> simp <;> ring

/-- C9: `calculateAveragePosition` returns the zero vector on an empty index
list (the division is guarded, so no degenerate division occurs), returns the
centroid — the sum of the addressed positions divided by their count — on a
nonempty one, and consequently maps the neighbor set of an isolated vertex
(no other vertex strictly within 0.1) to the zero vector. -/
theorem calculateAveragePosition_centroid :
    (∀ pos : List Vec3, calculateAveragePosition [] pos = Vec3.zero)
    ∧ (∀ (indices : List ℕ) (pos : List Vec3), indices ≠ [] →
        calculateAveragePosition indices pos
          = ((indices.map fun i => pos.getD i Vec3.zero).sum).smul
              (1 / (indices.length : ℝ)))
    ∧ (∀ (v : ℕ) (pos : List Vec3),
        (∀ j < pos.length, j ≠ v →
          0.1 ≤ (pos.getD v Vec3.zero).distanceTo (pos.getD j Vec3.zero)) →
        calculateAveragePosition (findNeighborVertices v pos) pos = Vec3.zero) := by
  have hempty : ∀ pos : List Vec3, calculateAveragePosition [] pos = Vec3.zero :=
    fun _ => rfl
  refine ⟨hempty, ?_, ?_⟩
  · intro indices pos hne
    unfold calculateAveragePosition
    rw [foldl_add_getD]
    rw [if_pos (List.length_pos.mpr hne)]
    ext <;> simp [Vec3.zero, Vec3.smul]
  · intro v pos hiso
    rw [findNeighborVertices_isolated v pos hiso]
    exact hempty pos

/-- Witness for `calculateAveragePosition_centroid`: a two-point centroid and
the isolated-vertex round trip on a lone faraway vertex both evaluate. -/
theorem calculateAveragePosition_centroid_witness :
    calculateAveragePosition [0, 1] [⟨1, 0, 0⟩, ⟨3, 0, 0⟩]
      = ((([0, 1] : List ℕ).map
            fun i => ([⟨1, 0, 0⟩, ⟨3, 0, 0⟩] : List Vec3).getD i Vec3.zero).sum).smul
          (1 / (([0, 1] : List ℕ).length : ℝ))
    ∧ calculateAveragePosition (findNeighborVertices 0 [⟨5, 0, 0⟩]) [⟨5, 0, 0⟩]
        = Vec3.zero :=
  ⟨calculateAveragePosition_centroid.2.1 [0, 1] [⟨1, 0, 0⟩, ⟨3, 0, 0⟩] (by simp),
   calculateAveragePosition_centroid.2.2 0 [⟨5, 0, 0⟩]
     (by intro j hj hne; exact absurd (Nat.lt_one_iff.mp (by simpa using hj)) hne)⟩

/-! ## Occlusal analysis

`performOcclusalAnalysis` colors each vertex via
`color.setHSL(distance < 0.5 ? 0 : 0.6, 1, 0.5)`.  We model the Three.js
color math it dispatches to: JS `%` (truncated remainder), `MathUtils.
euclideanModulo`, `MathUtils.clamp`, the `hue2rgb` helper, and
`Color.setHSL`; a color is its RGB triple, reusing `Vec3`. -/

/-- JavaScript `%` on numbers: `n - m * trunc(n / m)` (remainder with the
sign of the dividend). -/
noncomputable def jsMod (n m : ℝ) : ℝ :=
  n - m * (if 0 ≤ n / m then (⌊n / m⌋ : ℝ) else (⌈n / m⌉ : ℝ))

/-- `THREE.MathUtils.euclideanModulo`: `((n % m) + m) % m`. -/
noncomputable def euclideanModulo (n m : ℝ) : ℝ := jsMod (jsMod n m + m) m

/-- `THREE.MathUtils.clamp`: `Math.max(min, Math.min(max, value))`. -/
noncomputable def clamp (value lo hi : ℝ) : ℝ := max lo (min hi value)

/-- The `hue2rgb` helper of `THREE.Color.setHSL`. -/
noncomputable def hue2rgb (p q t0 : ℝ) : ℝ :=
  let t1 := if t0 < 0 then t0 + 1 else t0
  let t := if t1 > 1 then t1 - 1 else t1
  if t < 1 / 6 then p + (q - p) * 6 * t
  else if t < 1 / 2 then q
  else if t < 2 / 3 then p + (q - p) * 6 * (2 / 3 - t)
  else p

/-- `THREE.Color.setHSL(h, s, l)` (working color space semantics): hue
wrapped into `[0,1)`, saturation and lightness clamped, then the standard
HSL-to-RGB conversion. -/
noncomputable def setHSL (h0 s0 l0 : ℝ) : Vec3 :=
  let h := euclideanModulo h0 1
  let s := clamp s0 0 1
  let l := clamp l0 0 1
  if s = 0 then ⟨l, l, l⟩
  else
    let p := if l ≤ 0.5 then l * (1 + s) else l + s - l * s
    let q := 2 * l - p
    ⟨hue2rgb q p (h + 1 / 3), hue2rgb q p h, hue2rgb q p (h - 1 / 3)⟩

/-- The near-contact color, `setHSL(0, 1, 0.5)` (red). -/
noncomputable def nearContactColor : Vec3 := setHSL 0 1 0.5

/-- The far color, `setHSL(0.6, 1, 0.5)` (blue). -/
noncomputable def farColor : Vec3 := setHSL 0.6 1 0.5

/-- Occlusal classification (`performOcclusalAnalysis` in `Viewer3D`): every
vertex is colored `setHSL(d < 0.5 ? 0 : 0.6, 1, 0.5)` where `d` is its
distance to the reference point. -/
noncomputable def performOcclusalAnalysis (point : Vec3) (position : List Vec3) : List Vec3 :=
  (List.range position.length).map fun i =>
    let vertex := position.getD i Vec3.zero
    let distance := vertex.distanceTo point
    setHSL (if distance < 0.5 then 0 else 0.6) 1 0.5

lemma jsMod_one_eval (n : ℝ) (k : ℤ) (hn : 0 ≤ n) (h1 : (k:ℝ) ≤ n) (h2 : n < k + 1) :
    jsMod n 1 = n - k := by
  unfold jsMod
  rw [div_one, if_pos hn, Int.floor_eq_iff.mpr ⟨h1, h2⟩]
  ring

lemma euclideanModulo_one_eval (n : ℝ) (hn : 0 ≤ n) (h1 : n < 1) :
    euclideanModulo n 1 = n := by
  unfold euclideanModulo
  rw [jsMod_one_eval n 0 hn (by exact_mod_cast hn) (by push_cast; linarith)]
  push_cast
  rw [show n - 0 + 1 = n + 1 by ring]
  rw [jsMod_one_eval (n + 1) 1 (by linarith) (by push_cast; linarith) (by push_cast; linarith)]
  push_cast
  ring

lemma nearContactColor_eval : nearContactColor = ⟨1, 0, 0⟩ := by
  unfold nearContactColor setHSL
  rw [euclideanModulo_one_eval 0 le_rfl (by norm_num)]
  norm_num [clamp, hue2rgb, min_def, max_def]

lemma farColor_eval : farColor = ⟨0, 0.4, 1⟩ := by
  unfold farColor setHSL
  rw [euclideanModulo_one_eval 0.6 (by norm_num) (by norm_num)]
  norm_num [clamp, hue2rgb, min_def, max_def]

/-- C5: the occlusal classification is a pure two-bucket function of the
vertex's distance to the reference point: distance strictly below 0.5 gives
the near-contact color, distance at least 0.5 (the boundary included) gives
the distinct far color, and any two vertices at equal distances — in
particular across repeated calls with the same reference point on an
unmodified mesh — receive identical colors. -/
theorem occlusal_two_bucket_classification (point : Vec3) (pos : List Vec3) (i : ℕ)
    (hi : i < pos.length) :
    (performOcclusalAnalysis point pos).getD i Vec3.zero
      = (if (pos.getD i Vec3.zero).distanceTo point < 0.5
         then nearContactColor else farColor)
    ∧ nearContactColor ≠ farColor
    ∧ ∀ (q : Vec3) (pos' : List Vec3) (j : ℕ), j < pos'.length →
        (pos.getD i Vec3.zero).distanceTo point
          = (pos'.getD j Vec3.zero).distanceTo q →
        (performOcclusalAnalysis point pos).getD i Vec3.zero
          = (performOcclusalAnalysis q pos').getD j Vec3.zero := by
  have hbucket : ∀ (q : Vec3) (pos' : List Vec3) (j : ℕ), j < pos'.length →
      (performOcclusalAnalysis q pos').getD j Vec3.zero
        = (if (pos'.getD j Vec3.zero).distanceTo q < 0.5
           then nearContactColor else farColor) := by
    intro q pos' j hj
    unfold performOcclusalAnalysis
    rw [List.getD_map_range _ _ _ _ hj]
    dsimp only
    unfold nearContactColor farColor
    split_ifs <;> rfl
  refine ⟨hbucket point pos i hi, ?_, ?_⟩
  · rw [nearContactColor_eval, farColor_eval]
    intro h
    exact one_ne_zero (congrArg Vec3.x h)
  · intro q pos' j hj hd
    rw [hbucket point pos i hi, hbucket q pos' j hj, hd]

/-- Witness for `occlusal_two_bucket_classification`: a lone vertex at
distance 1 from the reference point is classified with the far color. -/
theorem occlusal_two_bucket_classification_witness :
    (performOcclusalAnalysis ⟨1, 0, 0⟩ [⟨0, 0, 0⟩]).getD 0 Vec3.zero
      = (if ((([⟨0, 0, 0⟩] : List Vec3).getD 0 Vec3.zero).distanceTo ⟨1, 0, 0⟩ < 0.5)
         then nearContactColor else farColor) :=
  (occlusal_two_bucket_classification ⟨1, 0, 0⟩ [⟨0, 0, 0⟩] 0 (by norm_num)).1

/-! ## Viewer auxiliary state

The measurement tool and STL loading manipulate React state plus the scene
graph.  Scene children are modelled as id-tagged objects (the id plays the
role of JavaScript object identity, allocated from a counter;
`scene.remove(obj)` is filtering that id out).  Only the object kinds the
modelled operations create or remove are represented. -/

/-- Geometry decoded by the external STL loader: parallel position and
normal buffers. -/
structure MeshData where
  positions : List Vec3
  normals : List Vec3

/-- A scene child: the loaded surface mesh (a `THREE.Mesh` without the
`isPoint` tag), a picked-point marker sphere (`isPoint` mesh), a measurement
line, a measurement distance label sprite, the margin polyline, a
cross-section plane helper, or a note sprite. -/
inductive SObj
  | meshObj (m : MeshData)
  | marker (pos : Vec3)
  | mline (a b : Vec3)
  | mlabel (text : String) (pos : Vec3)
  | marginObj (pts : List Vec3)
  | planeHelperObj (pl : Plane)
  | noteObj (text : String) (pos : Vec3)

def SObj.isNonPointMesh : SObj → Bool
  | .meshObj _ => true
  | _ => false

def SObj.isMarker : SObj → Bool
  | .marker _ => true
  | _ => false

def SObj.isMline : SObj → Bool
  | .mline _ _ => true
  | _ => false

def SObj.isMlabel : SObj → Bool
  | .mlabel _ _ => true
  | _ => false

/-- The `Viewer3D` component state the modelled operations touch: the scene
children, the id counter, and the React refs/state hooks (`activeMeshRef`,
`measureStartPoint` with its marker's id, `measureLine` as the ids of the
displayed line and label, `marginPoints`/`marginLine`,
`crossSectionPlaneRef`, `crossSectionValue`, `notes`). -/
structure ViewerState where
  scene : List (ℕ × SObj)
  nextId : ℕ
  activeMesh : Option MeshData
  measureStartPoint : Option (Vec3 × ℕ)
  measureLine : Option (ℕ × ℕ)
  marginPoints : List Vec3
  marginLine : Option (ℕ × List Vec3)
  crossSectionPlane : Option Plane
  crossSectionValue : ℝ
  notes : List (Vec3 × String)

/-- Two-digit zero padding for the fractional part of `toFixed(2)`. -/
def pad2 (n : ℕ) : String :=
  if n < 10 then "0" ++ toString n else toString n

/-- `Number.prototype.toFixed(2)` for a nonnegative number: the integer `n`
closest to `100·x` (ties toward the larger) printed with two decimals. -/
noncomputable def toFixed2OfNonneg (x : ℝ) : String :=
  let n := (⌊x * 100 + 1 / 2⌋).toNat
  toString (n / 100) ++ "." ++ pad2 (n % 100)

/-- `Number.prototype.toFixed(2)`: negative inputs print a leading minus. -/
noncomputable def toFixed2 (x : ℝ) : String :=
  if x < 0 then "-" ++ toFixed2OfNonneg (-x) else toFixed2OfNonneg x

/-- `createDistanceLabel` in `Viewer3D`: a sprite at the given position whose
canvas shows `distance.toFixed(2)` followed by a space and `units`. -/
noncomputable def createDistanceLabel (distance : ℝ) (position : Vec3) : SObj :=
  SObj.mlabel (toFixed2 distance ++ " units") position

/-- The measure case of `handleClick`.  First click: add a marker sphere at
the picked point and arm `measureStartPoint`.  Second click: add a second
marker, compute the Euclidean distance, build the line and the midpoint
label, remove the previous measurement's line and label (if any), add the
new pair, record it in `measureLine`, remove both intermediate markers, and
clear `measureStartPoint`. -/
noncomputable def handleClickMeasure (q : Vec3) (st : ViewerState) : ViewerState :=
  match st.measureStartPoint with
  | none =>
      { st with
        scene := st.scene ++ [(st.nextId, SObj.marker q)]
        measureStartPoint := some (q, st.nextId)
        nextId := st.nextId + 1 }
  | some (p0, m0) =>
      let markerId := st.nextId
      let lineId := st.nextId + 1
      let labelId := st.nextId + 2
      let distance := p0.distanceTo q
      let midPoint := (p0 + q).smul 0.5
      let scene1 := st.scene ++ [(markerId, SObj.marker q)]
      let scene2 :=
        match st.measureLine with
        | some (l, b) => (scene1.filter fun o => o.1 ≠ l).filter fun o => o.1 ≠ b
        | none => scene1
      let scene3 := scene2
        ++ [(lineId, SObj.mline p0 q), (labelId, createDistanceLabel distance midPoint)]
      let scene4 := (scene3.filter fun o => o.1 ≠ m0).filter fun o => o.1 ≠ markerId
      { st with
        scene := scene4
        measureLine := some (lineId, labelId)
        measureStartPoint := none
        nextId := st.nextId + 3 }

/-- The STL load effect of `Viewer3D` (`reader.onload` success path): parse
the geometry, store the new mesh in `activeMeshRef`, remove every previous
scene child that is a non-`isPoint` `THREE.Mesh`, and add the new mesh.
No other piece of state is touched. -/
def loadStl (g : MeshData) (st : ViewerState) : ViewerState :=
  { st with
    activeMesh := some g
    scene := (st.scene.filter fun o => !o.2.isNonPointMesh) ++ [(st.nextId, SObj.meshObj g)]
    nextId := st.nextId + 1 }

/-- Number of marker spheres in the scene. -/
def countMarkers (st : ViewerState) : ℕ :=
  (st.scene.filter fun o => o.2.isMarker).length

/-- Number of measurement lines in the scene. -/
def countMeasureLines (st : ViewerState) : ℕ :=
  (st.scene.filter fun o => o.2.isMline).length

/-- Number of measurement labels in the scene. -/
def countMeasureLabels (st : ViewerState) : ℕ :=
  (st.scene.filter fun o => o.2.isMlabel).length

/-- Well-formedness of the viewer state: scene ids are below the allocation
counter and pairwise distinct, an armed `measureStartPoint` refers to a
marker present in the scene, and `measureLine` tracks the measurement lines
and labels exactly: the scene's measurement lines (resp. labels) are exactly
the recorded one, or none at all. -/
def SceneWF (st : ViewerState) : Prop :=
  (∀ x ∈ st.scene, x.1 < st.nextId)
  ∧ (st.scene.map Prod.fst).Nodup
  ∧ (∀ p m, st.measureStartPoint = some (p, m) → (m, SObj.marker p) ∈ st.scene)
  ∧ (match st.measureLine with
     | some (l, b) =>
         (st.scene.filter fun o => o.2.isMline).map Prod.fst = [l]
         ∧ (st.scene.filter fun o => o.2.isMlabel).map Prod.fst = [b]
     | none =>
         (st.scene.filter fun o => o.2.isMline) = []
         ∧ (st.scene.filter fun o => o.2.isMlabel) = [])

@[simp] lemma SObj.isMarker_marker (p : Vec3) : (SObj.marker p).isMarker = true := rfl

@[simp] lemma SObj.isMline_marker (p : Vec3) : (SObj.marker p).isMline = false := rfl

@[simp] lemma SObj.isMlabel_marker (p : Vec3) : (SObj.marker p).isMlabel = false := rfl

@[simp] lemma SObj.isMarker_mline (a b : Vec3) : (SObj.mline a b).isMarker = false := rfl

@[simp] lemma SObj.isMline_mline (a b : Vec3) : (SObj.mline a b).isMline = true := rfl

@[simp] lemma SObj.isMlabel_mline (a b : Vec3) : (SObj.mline a b).isMlabel = false := rfl

@[simp] lemma SObj.isMarker_mlabel (t : String) (p : Vec3) :
    (SObj.mlabel t p).isMarker = false := rfl

@[simp] lemma SObj.isMline_mlabel (t : String) (p : Vec3) :
    (SObj.mlabel t p).isMline = false := rfl

@[simp] lemma SObj.isMlabel_mlabel (t : String) (p : Vec3) :
    (SObj.mlabel t p).isMlabel = true := rfl

/-- Filtering scene entries by object kind commutes with removing an id. -/
lemma filter_kind_id_comm (p : SObj → Bool) (a : ℕ) (L : List (ℕ × SObj)) :
    ((L.filter fun o => o.1 ≠ a).filter fun o => p o.2)
      = ((L.filter fun o => p o.2).filter fun o => o.1 ≠ a) := by
  rw [List.filter_filter, List.filter_filter]
  exact List.filter_congr fun o _ => Bool.and_comm _ _

/-- Removing an id that no entry carries is a no-op. -/
lemma filter_id_eq_self (L : List (ℕ × SObj)) (a : ℕ) (h : ∀ o ∈ L, o.1 ≠ a) :
    (L.filter fun o => o.1 ≠ a) = L :=
  List.filter_eq_self.mpr fun o ho => by simpa using h o ho

/-- Effect of the completing half of a measurement click on the scene: with
the two intermediate markers already in `S2` accounted separately, appending
the fresh line and label and then deleting the ids `N` and `N+1` of the two
markers leaves exactly one measurement line and one label, touches no other
marker, keeps ids below `N+4`, and preserves id distinctness. -/
lemma measure_completion_scene (S2 s4 : List (ℕ × SObj)) (N : ℕ) (q1 q2 : Vec3) (lbl : SObj)
    (hs4 : s4 = ((S2 ++ [(N + 2, SObj.mline q1 q2), (N + 3, lbl)]).filter
        fun o => o.1 ≠ N).filter fun o => o.1 ≠ N + 1)
    (hline : S2.filter (fun o => o.2.isMline) = [])
    (hlabel : S2.filter (fun o => o.2.isMlabel) = [])
    (hlb1 : lbl.isMline = false) (hlb2 : lbl.isMlabel = true) (hlb3 : lbl.isMarker = false)
    (hids : ∀ o ∈ S2, o.1 < N + 2)
    (hnd : (S2.map Prod.fst).Nodup) :
    (s4.filter fun o => o.2.isMline) = [(N + 2, SObj.mline q1 q2)]
    ∧ (s4.filter fun o => o.2.isMlabel) = [(N + 3, lbl)]
    ∧ (s4.filter fun o => o.2.isMarker)
        = (((S2.filter fun o => o.2.isMarker).filter fun o => o.1 ≠ N).filter
            fun o => o.1 ≠ N + 1)
    ∧ (∀ x ∈ s4, x.1 < N + 4)
    ∧ (s4.map Prod.fst).Nodup := by
  subst hs4
  have h2n : N + 2 ≠ N := by omega
  have h2n1 : N + 2 ≠ N + 1 := by omega
  have h3n : N + 3 ≠ N := by omega
  have h3n1 : N + 3 ≠ N + 1 := by omega
  have h23 : N + 2 ≠ N + 3 := by omega
  refine ⟨?_, ?_, ?_, ?_, ?_⟩
  · rw [filter_kind_id_comm, filter_kind_id_comm, List.filter_append, hline]
    simp [hlb1, h2n, h2n1]
  · rw [filter_kind_id_comm, filter_kind_id_comm, List.filter_append, hlabel]
    simp [hlb1, hlb2, h3n, h3n1]
  · rw [filter_kind_id_comm, filter_kind_id_comm, List.filter_append]
    simp [hlb3]
  · intro x hx
    have hx3 := List.mem_of_mem_filter (List.mem_of_mem_filter hx)
    rcases List.mem_append.mp hx3 with h | h
    · have := hids x h; omega
    · simp only [List.mem_cons, List.not_mem_nil, or_false] at h
      rcases h with h | h
      · subst h; show N + 2 < N + 4; omega
      · subst h; show N + 3 < N + 4; omega
  · have hsub : ((((S2 ++ [(N + 2, SObj.mline q1 q2), (N + 3, lbl)]).filter
        fun o => o.1 ≠ N).filter fun o => o.1 ≠ N + 1).map Prod.fst).Sublist
        ((S2 ++ [(N + 2, SObj.mline q1 q2), (N + 3, lbl)]).map Prod.fst) :=
      List.Sublist.map _ ((List.filter_sublist _).trans (List.filter_sublist _))
    apply List.Nodup.sublist hsub
    rw [List.map_append]
    rw [List.nodup_append]
    refine ⟨hnd, by simp [h23], ?_⟩
    intro a ha hb
    obtain ⟨x, hx, rfl⟩ := List.mem_map.mp ha
    have hlt := hids x hx
    simp only [List.map_cons, List.map_nil, List.mem_cons, List.not_mem_nil, or_false] at hb
    rcases hb with h | h <;> omega

lemma SObj.isMarker_isMline_false (x : SObj) (h1 : x.isMarker = true)
    (h2 : x.isMline = true) : False := by
  cases x <;> simp [SObj.isMarker, SObj.isMline] at h1 h2

lemma SObj.isMarker_isMlabel_false (x : SObj) (h1 : x.isMarker = true)
    (h2 : x.isMlabel = true) : False := by
  cases x <;> simp [SObj.isMarker, SObj.isMlabel] at h1 h2

/-- C6: the measurement tool is a two-state machine.  From a well-formed
state with no armed point, the first click stores the picked point (with its
marker's id), adds exactly one marker and no line or label, and the state
stays well formed; the second click disarms the tool, restores the marker
population of the scene exactly (both intermediate markers are gone), leaves
exactly one measurement line — the segment between the two picked points —
and exactly one label — the midpoint sprite showing the Euclidean distance
via `toFixed(2)` with the `units` suffix — having removed any previous
measurement's line and label, and the state is well formed again (so at most
one line/label pair is ever visible). -/
theorem measurement_state_machine (st : ViewerState) (q1 q2 : Vec3)
    (hWF : SceneWF st) (hEmpty : st.measureStartPoint = none) :
    (handleClickMeasure q1 st).measureStartPoint = some (q1, st.nextId)
    ∧ countMarkers (handleClickMeasure q1 st) = countMarkers st + 1
    ∧ countMeasureLines (handleClickMeasure q1 st) = countMeasureLines st
    ∧ countMeasureLabels (handleClickMeasure q1 st) = countMeasureLabels st
    ∧ SceneWF (handleClickMeasure q1 st)
    ∧ (handleClickMeasure q2 (handleClickMeasure q1 st)).measureStartPoint = none
    ∧ ((handleClickMeasure q2 (handleClickMeasure q1 st)).scene.filter
          fun o => o.2.isMarker)
        = (st.scene.filter fun o => o.2.isMarker)
    ∧ ((handleClickMeasure q2 (handleClickMeasure q1 st)).scene.filter
          fun o => o.2.isMline).map Prod.snd = [SObj.mline q1 q2]
    ∧ ((handleClickMeasure q2 (handleClickMeasure q1 st)).scene.filter
          fun o => o.2.isMlabel).map Prod.snd
        = [SObj.mlabel (toFixed2 (q1.distanceTo q2) ++ " units") ((q1 + q2).smul 0.5)]
    ∧ SceneWF (handleClickMeasure q2 (handleClickMeasure q1 st)) := by
  obtain ⟨hIds, hNodup, hSP, hML⟩ := hWF
  have hst1 : handleClickMeasure q1 st = { st with
      scene := st.scene ++ [(st.nextId, SObj.marker q1)]
      measureStartPoint := some (q1, st.nextId)
      nextId := st.nextId + 1 } := by
    unfold handleClickMeasure
    rw [hEmpty]
  have hcm1 : countMarkers (handleClickMeasure q1 st) = countMarkers st + 1 := by
    rw [hst1]
    unfold countMarkers
    simp [List.filter_append]
  have hcl1 : countMeasureLines (handleClickMeasure q1 st) = countMeasureLines st := by
    rw [hst1]
    unfold countMeasureLines
    simp [List.filter_append]
  have hcb1 : countMeasureLabels (handleClickMeasure q1 st) = countMeasureLabels st := by
    rw [hst1]
    unfold countMeasureLabels
    simp [List.filter_append]
  have hIds1 : ∀ x ∈ st.scene ++ [(st.nextId, SObj.marker q1)], x.1 < st.nextId + 1 := by
    intro x hx
    rcases List.mem_append.mp hx with h | h
    · exact Nat.lt_succ_of_lt (hIds x h)
    · simp only [List.mem_cons, List.not_mem_nil, or_false] at h
      subst h
      exact Nat.lt_succ_self _
  have hNodup1 : ((st.scene ++ [(st.nextId, SObj.marker q1)]).map Prod.fst).Nodup := by
    rw [List.map_append, List.nodup_append]
    refine ⟨hNodup, List.nodup_singleton _, ?_⟩
    intro a ha hb
    simp only [List.map_cons, List.map_nil, List.mem_cons, List.not_mem_nil, or_false] at hb
    obtain ⟨x, hx, hfx⟩ := List.mem_map.mp ha
    have := hIds x hx
    omega
  have hln1 : ((st.scene ++ [(st.nextId, SObj.marker q1)]).filter fun o => o.2.isMline)
      = st.scene.filter fun o => o.2.isMline := by
    simp [List.filter_append]
  have hlb1 : ((st.scene ++ [(st.nextId, SObj.marker q1)]).filter fun o => o.2.isMlabel)
      = st.scene.filter fun o => o.2.isMlabel := by
    simp [List.filter_append]
  have hWF1 : SceneWF (handleClickMeasure q1 st) := by
    rw [hst1]
    refine ⟨hIds1, hNodup1, ?_, ?_⟩
    · intro p m h
      simp only [Option.some.injEq, Prod.mk.injEq] at h
      obtain ⟨rfl, rfl⟩ := h
      exact List.mem_append_right _ (List.mem_cons_self _ _)
    · show (match st.measureLine with
        | some (l, b) =>
            (((st.scene ++ [(st.nextId, SObj.marker q1)]).filter
              fun o => o.2.isMline).map Prod.fst = [l])
            ∧ (((st.scene ++ [(st.nextId, SObj.marker q1)]).filter
              fun o => o.2.isMlabel).map Prod.fst = [b])
        | none =>
            ((st.scene ++ [(st.nextId, SObj.marker q1)]).filter
              fun o => o.2.isMline) = []
            ∧ ((st.scene ++ [(st.nextId, SObj.marker q1)]).filter
              fun o => o.2.isMlabel) = [] : Prop)
      rcases hml : st.measureLine with _ | ⟨l, b⟩ <;> rw [hml] at hML <;>
        simpa only [hln1, hlb1] using hML
  have hscene1ids : ∀ o ∈ (st.scene ++ [(st.nextId, SObj.marker q1)])
      ++ [(st.nextId + 1, SObj.marker q2)], o.1 < st.nextId + 2 := by
    intro o ho
    rcases List.mem_append.mp ho with h | h
    · have := hIds1 o h; omega
    · simp only [List.mem_cons, List.not_mem_nil, or_false] at h
      subst h
      show st.nextId + 1 < st.nextId + 2
      omega
  have hscene1nd : (((st.scene ++ [(st.nextId, SObj.marker q1)])
      ++ [(st.nextId + 1, SObj.marker q2)]).map Prod.fst).Nodup := by
    rw [List.map_append, List.nodup_append]
    refine ⟨hNodup1, List.nodup_singleton _, ?_⟩
    intro a ha hb
    simp only [List.map_cons, List.map_nil, List.mem_cons, List.not_mem_nil, or_false] at hb
    obtain ⟨x, hx, hfx⟩ := List.mem_map.mp ha
    have := hIds1 x hx
    omega
  have hmkScene1 : (((st.scene ++ [(st.nextId, SObj.marker q1)])
        ++ [(st.nextId + 1, SObj.marker q2)]).filter fun o => o.2.isMarker)
      = (st.scene.filter fun o => o.2.isMarker)
        ++ [(st.nextId, SObj.marker q1), (st.nextId + 1, SObj.marker q2)] := by
    simp [List.filter_append]
  have hfm : (((st.scene.filter fun o => o.2.isMarker)
        ++ [(st.nextId, SObj.marker q1), (st.nextId + 1, SObj.marker q2)]).filter
          (fun o => o.1 ≠ st.nextId)).filter (fun o => o.1 ≠ st.nextId + 1)
      = st.scene.filter fun o => o.2.isMarker := by
    have hn1 : st.nextId + 1 ≠ st.nextId := by omega
    rw [List.filter_append]
    rw [filter_id_eq_self _ _ fun o ho =>
      Nat.ne_of_lt (hIds o (List.mem_of_mem_filter ho))]
    rw [show ([(st.nextId, SObj.marker q1),
        (st.nextId + 1, SObj.marker q2)].filter fun o => o.1 ≠ st.nextId)
        = [(st.nextId + 1, SObj.marker q2)] by simp [hn1]]
    rw [List.filter_append]
    rw [filter_id_eq_self _ _ fun o ho => by
      have := hIds o (List.mem_of_mem_filter ho); omega]
    simp
  have hmain :
      (handleClickMeasure q2 (handleClickMeasure q1 st)).measureStartPoint = none
      ∧ ((handleClickMeasure q2 (handleClickMeasure q1 st)).scene.filter
            fun o => o.2.isMarker)
          = (st.scene.filter fun o => o.2.isMarker)
      ∧ ((handleClickMeasure q2 (handleClickMeasure q1 st)).scene.filter
            fun o => o.2.isMline).map Prod.snd = [SObj.mline q1 q2]
      ∧ ((handleClickMeasure q2 (handleClickMeasure q1 st)).scene.filter
            fun o => o.2.isMlabel).map Prod.snd
          = [SObj.mlabel (toFixed2 (q1.distanceTo q2) ++ " units") ((q1 + q2).smul 0.5)]
      ∧ SceneWF (handleClickMeasure q2 (handleClickMeasure q1 st)) := by
    rcases hml : st.measureLine with _ | ⟨l, b⟩ <;> rw [hml] at hML
    · obtain ⟨hML1, hML2⟩ := hML
      have hst2 : handleClickMeasure q2 (handleClickMeasure q1 st) = { st with
          scene := ((((st.scene ++ [(st.nextId, SObj.marker q1)])
                ++ [(st.nextId + 1, SObj.marker q2)])
              ++ [(st.nextId + 2, SObj.mline q1 q2),
                  (st.nextId + 3,
                    createDistanceLabel (q1.distanceTo q2) ((q1 + q2).smul 0.5))]).filter
                (fun o => o.1 ≠ st.nextId)).filter fun o => o.1 ≠ st.nextId + 1
          measureLine := some (st.nextId + 2, st.nextId + 3)
          measureStartPoint := none
          nextId := st.nextId + 4 } := by
        rw [hst1]
        unfold handleClickMeasure
        dsimp only
        rw [hml]
      obtain ⟨hLn4, hLb4, hMk4, hIds4, hNd4⟩ :=
        measure_completion_scene
          ((st.scene ++ [(st.nextId, SObj.marker q1)]) ++ [(st.nextId + 1, SObj.marker q2)])
          _ st.nextId q1 q2
          (createDistanceLabel (q1.distanceTo q2) ((q1 + q2).smul 0.5))
          rfl
          (by simp [List.filter_append, hML1])
          (by simp [List.filter_append, hML2])
          rfl rfl rfl hscene1ids hscene1nd
      refine ⟨by rw [hst2], ?_, ?_, ?_, ?_⟩
      · rw [hst2]
        dsimp only
        rw [hMk4, hmkScene1, hfm]
      · rw [hst2]
        dsimp only
        rw [hLn4]
        rfl
      · rw [hst2]
        dsimp only
        rw [hLb4]
        rfl
      · rw [hst2]
        refine ⟨fun x hx => hIds4 x hx, hNd4, fun p m h => Option.noConfusion h, ?_⟩
        exact ⟨by rw [hLn4]; rfl, by rw [hLb4]; rfl⟩
    · obtain ⟨hML1, hML2⟩ := hML
      rcases hfe : st.scene.filter (fun o => o.2.isMline) with _ | ⟨e, te⟩
      · rw [hfe] at hML1; simp at hML1
      rw [hfe] at hML1
      simp only [List.map_cons, List.cons.injEq] at hML1
      obtain ⟨hel, hte⟩ := hML1
      have hte0 : te = [] := List.map_eq_nil_iff.mp hte
      subst hte0
      have heS : e ∈ st.scene ∧ e.2.isMline = true := by
        have he : e ∈ st.scene.filter fun o => o.2.isMline := by
          rw [hfe]; exact List.mem_cons_self _ _
        exact List.mem_filter.mp he
      rcases hff : st.scene.filter (fun o => o.2.isMlabel) with _ | ⟨f, tf⟩
      · rw [hff] at hML2; simp at hML2
      rw [hff] at hML2
      simp only [List.map_cons, List.cons.injEq] at hML2
      obtain ⟨hfb, htf⟩ := hML2
      have htf0 : tf = [] := List.map_eq_nil_iff.mp htf
      subst htf0
      have hfS : f ∈ st.scene ∧ f.2.isMlabel = true := by
        have hf : f ∈ st.scene.filter fun o => o.2.isMlabel := by
          rw [hff]; exact List.mem_cons_self _ _
        exact List.mem_filter.mp hf
      have hst2 : handleClickMeasure q2 (handleClickMeasure q1 st) = { st with
          scene := ((((((st.scene ++ [(st.nextId, SObj.marker q1)])
                    ++ [(st.nextId + 1, SObj.marker q2)]).filter
                      fun o => o.1 ≠ l).filter fun o => o.1 ≠ b)
                ++ [(st.nextId + 2, SObj.mline q1 q2),
                    (st.nextId + 3,
                      createDistanceLabel (q1.distanceTo q2) ((q1 + q2).smul 0.5))]).filter
                  (fun o => o.1 ≠ st.nextId)).filter fun o => o.1 ≠ st.nextId + 1
          measureLine := some (st.nextId + 2, st.nextId + 3)
          measureStartPoint := none
          nextId := st.nextId + 4 } := by
        rw [hst1]
        unfold handleClickMeasure
        dsimp only
        rw [hml]
      have hS2ids : ∀ o ∈ (((st.scene ++ [(st.nextId, SObj.marker q1)])
            ++ [(st.nextId + 1, SObj.marker q2)]).filter
              fun o => o.1 ≠ l).filter fun o => o.1 ≠ b, o.1 < st.nextId + 2 :=
        fun o ho =>
          hscene1ids o (List.mem_of_mem_filter (List.mem_of_mem_filter ho))
      have hS2nd : ((((((st.scene ++ [(st.nextId, SObj.marker q1)])
            ++ [(st.nextId + 1, SObj.marker q2)]).filter
              fun o => o.1 ≠ l).filter fun o => o.1 ≠ b)).map Prod.fst).Nodup :=
        List.Nodup.sublist
          (List.Sublist.map _ ((List.filter_sublist _).trans (List.filter_sublist _)))
          hscene1nd
      have hlnS1 : (((st.scene ++ [(st.nextId, SObj.marker q1)])
          ++ [(st.nextId + 1, SObj.marker q2)]).filter fun o => o.2.isMline) = [e] := by
        simp [List.filter_append, hfe]
      have hlbS1 : (((st.scene ++ [(st.nextId, SObj.marker q1)])
          ++ [(st.nextId + 1, SObj.marker q2)]).filter fun o => o.2.isMlabel) = [f] := by
        simp [List.filter_append, hff]
      have hlineS2 : ((((st.scene ++ [(st.nextId, SObj.marker q1)])
            ++ [(st.nextId + 1, SObj.marker q2)]).filter
              (fun o => o.1 ≠ l)).filter (fun o => o.1 ≠ b)).filter
            (fun o => o.2.isMline) = [] := by
        rw [filter_kind_id_comm, filter_kind_id_comm, hlnS1]
        rw [show ([e].filter fun o => o.1 ≠ l) = [] by simp [hel]]
        rfl
      have hlabelS2 : ((((st.scene ++ [(st.nextId, SObj.marker q1)])
            ++ [(st.nextId + 1, SObj.marker q2)]).filter
              (fun o => o.1 ≠ l)).filter (fun o => o.1 ≠ b)).filter
            (fun o => o.2.isMlabel) = [] := by
        rw [filter_kind_id_comm, filter_kind_id_comm, hlbS1]
        rcases eq_or_ne f.1 l with h | h
        · rw [show ([f].filter fun o => o.1 ≠ l) = [] by simp [h]]
          rfl
        · rw [show ([f].filter fun o => o.1 ≠ l) = [f] by simp [h]]
          rw [show ([f].filter fun o => o.1 ≠ b) = [] by simp [hfb]]
      have heScene1 : e ∈ (st.scene ++ [(st.nextId, SObj.marker q1)])
          ++ [(st.nextId + 1, SObj.marker q2)] :=
        List.mem_append.mpr (Or.inl (List.mem_append.mpr (Or.inl heS.1)))
      have hfScene1 : f ∈ (st.scene ++ [(st.nextId, SObj.marker q1)])
          ++ [(st.nextId + 1, SObj.marker q2)] :=
        List.mem_append.mpr (Or.inl (List.mem_append.mpr (Or.inl hfS.1)))
      have hnol : ∀ o ∈ (((st.scene ++ [(st.nextId, SObj.marker q1)])
            ++ [(st.nextId + 1, SObj.marker q2)]).filter fun o => o.2.isMarker),
          o.1 ≠ l := by
        intro o ho hol
        have hoS := List.mem_filter.mp ho
        have heq : o = e :=
          List.inj_on_of_nodup_map hscene1nd hoS.1 heScene1 (by rw [hol, hel])
        exact SObj.isMarker_isMline_false e.2 (heq ▸ hoS.2) heS.2
      have hnob : ∀ o ∈ (((st.scene ++ [(st.nextId, SObj.marker q1)])
            ++ [(st.nextId + 1, SObj.marker q2)]).filter fun o => o.2.isMarker),
          o.1 ≠ b := by
        intro o ho hob
        have hoS := List.mem_filter.mp ho
        have heq : o = f :=
          List.inj_on_of_nodup_map hscene1nd hoS.1 hfScene1 (by rw [hob, hfb])
        exact SObj.isMarker_isMlabel_false f.2 (heq ▸ hoS.2) hfS.2
      have hmkS2 : ((((st.scene ++ [(st.nextId, SObj.marker q1)])
            ++ [(st.nextId + 1, SObj.marker q2)]).filter
              (fun o => o.1 ≠ l)).filter (fun o => o.1 ≠ b)).filter
            (fun o => o.2.isMarker)
          = (((st.scene ++ [(st.nextId, SObj.marker q1)])
              ++ [(st.nextId + 1, SObj.marker q2)]).filter fun o => o.2.isMarker) := by
        rw [filter_kind_id_comm, filter_kind_id_comm]
        rw [filter_id_eq_self _ _ hnol, filter_id_eq_self _ _ hnob]
      obtain ⟨hLn4, hLb4, hMk4, hIds4, hNd4⟩ :=
        measure_completion_scene
          ((((st.scene ++ [(st.nextId, SObj.marker q1)])
              ++ [(st.nextId + 1, SObj.marker q2)]).filter
                fun o => o.1 ≠ l).filter fun o => o.1 ≠ b)
          _ st.nextId q1 q2
          (createDistanceLabel (q1.distanceTo q2) ((q1 + q2).smul 0.5))
          rfl hlineS2 hlabelS2 rfl rfl rfl hS2ids hS2nd
      refine ⟨by rw [hst2], ?_, ?_, ?_, ?_⟩
      · rw [hst2]
        dsimp only
        rw [hMk4, hmkS2, hmkScene1, hfm]
      · rw [hst2]
        dsimp only
        rw [hLn4]
        rfl
      · rw [hst2]
        dsimp only
        rw [hLb4]
        rfl
      · rw [hst2]
        refine ⟨fun x hx => hIds4 x hx, hNd4, fun p m h => Option.noConfusion h, ?_⟩
        exact ⟨by rw [hLn4]; rfl, by rw [hLb4]; rfl⟩
  exact ⟨by rw [hst1], hcm1, hcl1, hcb1, hWF1, hmain.1, hmain.2.1, hmain.2.2.1,
    hmain.2.2.2.1, hmain.2.2.2.2⟩

/-- The initial viewer state: empty scene, nothing armed. -/
noncomputable def emptyViewerState : ViewerState :=
  { scene := []
    nextId := 0
    activeMesh := none
    measureStartPoint := none
    measureLine := none
    marginPoints := []
    marginLine := none
    crossSectionPlane := none
    crossSectionValue := 0
    notes := [] }

/-- Witness for `measurement_state_machine`: from the empty well-formed
state, clicking `(0,0,0)` and then `(3,0,0)` leaves exactly the measurement
line between those two points. -/
theorem measurement_state_machine_witness :
    ((handleClickMeasure ⟨3, 0, 0⟩ (handleClickMeasure ⟨0, 0, 0⟩ emptyViewerState)).scene.filter
        fun o => o.2.isMline).map Prod.snd = [SObj.mline ⟨0, 0, 0⟩ ⟨3, 0, 0⟩] :=
  (measurement_state_machine emptyViewerState ⟨0, 0, 0⟩ ⟨3, 0, 0⟩
    ⟨by simp [emptyViewerState], by simp [emptyViewerState],
     by intro p m h; exact Option.noConfusion h, ⟨rfl, rfl⟩⟩
    rfl).2.2.2.2.2.2.2.1

/-- The mesh loaded first (mesh A). -/
noncomputable def c3meshA : MeshData := ⟨[⟨0, 0, 0⟩], [⟨0, 0, 1⟩]⟩

/-- The replacement mesh (mesh B). -/
noncomputable def c3meshB : MeshData := ⟨[⟨5, 5, 5⟩], [⟨1, 0, 0⟩]⟩

/-- A state built while mesh A was active: an armed measurement point picked
on mesh A (marker id 1), a traced margin line (polyline id 2), and an active
cross-section plane. -/
noncomputable def c3state : ViewerState :=
  { scene := [(0, SObj.meshObj c3meshA), (1, SObj.marker ⟨1, 2, 3⟩),
      (2, SObj.marginObj [⟨0, 0, 0⟩, ⟨1, 0, 0⟩])]
    nextId := 3
    activeMesh := some c3meshA
    measureStartPoint := some (⟨1, 2, 3⟩, 1)
    measureLine := none
    marginPoints := [⟨0, 0, 0⟩, ⟨1, 0, 0⟩]
    marginLine := some (2, [⟨0, 0, 0⟩, ⟨1, 0, 0⟩])
    crossSectionPlane := some ⟨⟨0, 1, 0⟩, -2⟩
    crossSectionValue := 2
    notes := [] }

/-- C3 (the code at the failing input): loading replacement mesh B swaps the
active mesh and removes mesh A's scene object, but every piece of ephemeral
state derived from mesh A survives — the armed measurement point (and its
marker), the margin points and displayed polyline, and the cross-section
plane all remain and can be dereferenced against the new mesh. -/
theorem loadStl_keeps_stale_state :
    (loadStl c3meshB c3state).activeMesh = some c3meshB
    ∧ (loadStl c3meshB c3state).measureStartPoint = some (⟨1, 2, 3⟩, 1)
    ∧ (loadStl c3meshB c3state).marginPoints = [⟨0, 0, 0⟩, ⟨1, 0, 0⟩]
    ∧ (loadStl c3meshB c3state).marginLine = some (2, [⟨0, 0, 0⟩, ⟨1, 0, 0⟩])
    ∧ (loadStl c3meshB c3state).crossSectionPlane = some ⟨⟨0, 1, 0⟩, -2⟩
    ∧ (1, SObj.marker ⟨1, 2, 3⟩) ∈ (loadStl c3meshB c3state).scene
    ∧ (2, SObj.marginObj [⟨0, 0, 0⟩, ⟨1, 0, 0⟩]) ∈ (loadStl c3meshB c3state).scene
    ∧ (0, SObj.meshObj c3meshA) ∉ (loadStl c3meshB c3state).scene := by
  refine ⟨rfl, rfl, rfl, rfl, rfl, ?_, ?_, ?_⟩
  · simp [loadStl, c3state, SObj.isNonPointMesh]
  · simp [loadStl, c3state, SObj.isNonPointMesh]
  · simp [loadStl, c3state, c3meshA, c3meshB, SObj.isNonPointMesh]
